import Mathlib

/-!
Shallow embedding of the auction bidding engine of `src/auctions/views.py`
(tjud14/youtuber-bidding-api).

Conventions of the embedding:
* Monetary amounts (`Decimal` in the source) are rationals `ℚ`.
* Timestamps are integers `Int`; `timezone.now()` is passed in as `now`.
* The database rows touched by `place_bid` are collected in `AuctionState`:
  the single item being bid on, its list of `Bid` rows, and the `BidAttempt`
  rows.  Lists are append-only, mirroring `objects.create`.
* The request body's `amount` field is modelled by `RawAmount`: `missing`
  covers an absent or falsy value (caught by `if not amount`), `malformed`
  a truthy value on which `Decimal(str(amount))` raises, and `value q` a
  value that parses to the rational `q`.
* The mail transport used by `send_outbid_notification` is modelled by a
  boolean `transport_ok`; the source catches every exception of `send_mail`
  and returns `False` (views.py:1265-1278), so the transport can only
  influence the returned delivery flag, never raise.
-/

namespace AuctionEngine

/-- Fields of the `Item` model read or written by the bidding code. -/
structure Item where
  is_active : Bool
  start_date : Int
  end_date : Int
  starting_price : ℚ
  current_price : ℚ
  winner : Option Nat
deriving DecidableEq, Repr

/-- One `Bid` row: bidder id and amount (views.py:727-731). -/
structure Bid where
  user : Nat
  amount : ℚ
deriving DecidableEq, Repr

/-- One `BidAttempt` row (views.py:738-742, 765-769). -/
structure BidAttempt where
  user : Nat
  ip_address : Nat
  timestamp : Int
  success : Bool
deriving DecidableEq, Repr

/-- The persisted state `place_bid` reads and writes, for one item. -/
structure AuctionState where
  item : Item
  bids : List Bid
  attempts : List BidAttempt
deriving DecidableEq, Repr

/-- Constant `MAX_BID_ATTEMPTS` (views.py:54). -/
def MAX_BID_ATTEMPTS : Nat := 10

/-- Constant `BID_ATTEMPT_PERIOD`, in seconds (views.py:55). -/
def BID_ATTEMPT_PERIOD : Int := 60

/-- The authoritative count behind `check_bid_rate_limit` (views.py:118-134):
count the `BidAttempt` rows of the trailing `BID_ATTEMPT_PERIOD` window with
the given origin address (and the given user when authenticated), and report
whether the count has reached `MAX_BID_ATTEMPTS`.  The short-lived cache of
the source only serves this same count with bounded staleness. -/
def check_bid_rate_limit (attempts : List BidAttempt) (user : Option Nat)
    (ip : Nat) (now : Int) : Bool :=
  let cutoff := now - BID_ATTEMPT_PERIOD
  let matching := attempts.filter fun a =>
    a.ip_address == ip && decide (cutoff ≤ a.timestamp) &&
      (match user with
       | some u => a.user == u
       | none => true)
  decide (MAX_BID_ATTEMPTS ≤ matching.length)

/-- The status of the request body's `amount` field. -/
inductive RawAmount where
  | missing
  | malformed
  | value (q : ℚ)
deriving DecidableEq, Repr

/-- The rejection messages of `place_bid`, as a closed enumeration. -/
inductive Reason where
  | notActive
  | ended
  | amountRequired
  | invalidAmount
  | tooLow
  | belowIncrement
deriving DecidableEq, Repr

/-- Outcome reported to the caller of `place_bid`. -/
inductive BidResult where
  | accepted (amount : ℚ)
  | rejected (r : Reason)
deriving DecidableEq, Repr

/-- The validation chain of `place_bid` (views.py:681-724), as a pure
function of the in-memory item snapshot, the raw amount and the clock:
active check, end check (`end_date < now` rejects), amount presence,
amount parsing, `amount <= current_price` (too low),
`amount < current_price + 1` (below increment); otherwise accepted. -/
def validate_bid (item : Item) (raw : RawAmount) (now : Int) : BidResult :=
  if !item.is_active then .rejected .notActive
  else if item.end_date < now then .rejected .ended
  else
    match raw with
    | .missing => .rejected .amountRequired
    | .malformed => .rejected .invalidAmount
    | .value amount =>
      if amount ≤ item.current_price then .rejected .tooLow
      else if amount < item.current_price + 1 then .rejected .belowIncrement
      else .accepted amount

/-- Commit half of `place_bid`: validation ran against the in-memory
snapshot `snap` of the item (the copy `get_object` loaded), and on
acceptance the `Bid` row, the price update (`item.save()` writes the whole
snapshot back with the new price) and the successful `BidAttempt` are
written to the current database state `s` (views.py:726-742).  Rejections
write nothing. -/
def apply_bid (s : AuctionState) (snap : Item) (userId ip : Nat)
    (raw : RawAmount) (now : Int) : BidResult × AuctionState :=
  match validate_bid snap raw now with
  | .rejected r => (.rejected r, s)
  | .accepted a =>
      (.accepted a,
       { item := { snap with current_price := a },
         bids := s.bids ++ [⟨userId, a⟩],
         attempts := s.attempts ++ [⟨userId, ip, now, true⟩] })

/-- `Bid.objects.filter(item=item).exclude(id=bid.id).order_by("-amount").first()`
applied to the bids that existed before the new one (views.py:745): the
maximum-amount bid, first such in row order on ties. -/
def previous_highest_bid (bids : List Bid) : Option Bid :=
  bids.foldl
    (fun best b =>
      match best with
      | none => some b
      | some c => if c.amount < b.amount then some b else some c)
    none

/-- `send_outbid_notification` (views.py:1220-1278): every exception of the
mail call is caught and turned into `False`, so the function simply reports
whether the transport delivered. -/
def send_outbid_notification (transport_ok : Bool) : Bool :=
  transport_ok

/-- What `place_bid` produces: the HTTP-level result, the db state after the
call, and whether an outbid notification was delivered. -/
structure PlaceBidOutcome where
  result : BidResult
  state : AuctionState
  notified : Bool
deriving DecidableEq, Repr

/-- `ItemViewSet.place_bid` (views.py:676-774).  `outbid_enabled` gives each
user's `outbid_notifications_enabled` flag.  Validation rejections return
early without touching the database; on acceptance the bid row, the price
update and the successful attempt are written, then the previous highest
bidder (if distinct and opted in) is notified, failures of the transport
being swallowed by `send_outbid_notification`. -/
def place_bid (s : AuctionState) (userId ip : Nat) (raw : RawAmount)
    (now : Int) (outbid_enabled : Nat → Bool) (transport_ok : Bool) :
    PlaceBidOutcome :=
  match apply_bid s s.item userId ip raw now with
  | (.rejected r, s') => ⟨.rejected r, s', false⟩
  | (.accepted a, s') =>
      let notified :=
        match previous_highest_bid s.bids with
        | some prev =>
            if prev.user != userId && outbid_enabled prev.user then
              send_outbid_notification transport_ok
            else false
        | none => false
      ⟨.accepted a, s', notified⟩

/-- Two `place_bid` requests on the same item interleaved so that both load
the item (`get_object`) before either commits: both validate against the
same snapshot of `current_price`, then commit in order.  The source takes
no row lock and opens no enclosing database operation around
read-validate-write, so this schedule is possible. -/
def two_bids_interleaved (s : AuctionState) (u₁ u₂ ip : Nat) (a₁ a₂ : ℚ)
    (now : Int) : BidResult × BidResult × AuctionState :=
  let snap₁ := s.item
  let snap₂ := s.item
  let (r₁, s₁) := apply_bid s snap₁ u₁ ip (.value a₁) now
  let (r₂, s₂) := apply_bid s₁ snap₂ u₂ ip (.value a₂) now
  (r₁, r₂, s₂)

/-- Replace an item's `start_date`, leaving everything else unchanged. -/
def set_start (s : AuctionState) (d : Int) : AuctionState :=
  { s with item := { s.item with start_date := d } }

/-- Result of the admin endpoint `mark_winners` (views.py:1281-1342). -/
inductive MWResult where
  | missingParams
  | itemNotFound (id : Nat)
  | userNotFound (uid : Nat)
  | activeAuction
  | success (uid : Nat) (id : Nat)
deriving DecidableEq, Repr

/-- `Item.objects.get(pk=id)` over a database of `(id, item)` rows: the
first row with the given primary key, if any. -/
def find_item (db : List (Nat × Item)) (id : Nat) : Option Item :=
  (db.find? fun p => p.1 == id).map Prod.snd

/-- Store `uid` as the winner of the row with primary key `id`
(`item.winner = user; item.save()`, views.py:1315-1316). -/
def set_winner (db : List (Nat × Item)) (id uid : Nat) : List (Nat × Item) :=
  db.map fun p =>
    if p.1 == id then (p.1, { p.2 with winner := some uid }) else p

/-- `mark_winners` (views.py:1281-1342).  `db` is the item table, `users`
the set of existing user ids, and `bid_table` the `Bid` rows — listed as an
argument because the endpoint belongs to winner assignment, though the
source body never reads it.  The body requires both parameters, takes
`item_ids[0]` only, looks the item and the user up, rejects when
`item.end_date > now`, and otherwise sets `item.winner = user` and saves. -/
def mark_winners (db : List (Nat × Item)) (users : List Nat)
    (bid_table : List Bid) (item_ids : List Nat) (user_id : Option Nat)
    (now : Int) : MWResult × List (Nat × Item) :=
  match item_ids, user_id with
  | [], _ => (.missingParams, db)
  | _, none => (.missingParams, db)
  | id₀ :: _, some uid =>
    match find_item db id₀ with
    | none => (.itemNotFound id₀, db)
    | some item =>
      if !(users.contains uid) then (.userNotFound uid, db)
      else if now < item.end_date then (.activeAuction, db)
      else (.success uid id₀, set_winner db id₀ uid)

/-- A demonstration item: active, window `[0, 100)`, both prices `10`. -/
def demoItem : Item := ⟨true, 0, 100, 10, 10, none⟩

/-- A demonstration state: `demoItem` with empty bid and attempt tables. -/
def demoState : AuctionState := ⟨demoItem, [], []⟩

/-- A user-preference table with every notification opted out. -/
def noPrefs : Nat → Bool := fun _ => false

/-- Ten `BidAttempt` rows by user 1 from address 1, at seconds 0 through 9. -/
def tenAttempts : List BidAttempt :=
  (List.range 10).map fun i => ⟨1, 1, (i : Int), true⟩

/-! Helper lemmas about the shape of `place_bid`. -/

theorem place_bid_result (s : AuctionState) (u ip : Nat) (raw : RawAmount)
    (now : Int) (en : Nat → Bool) (tr : Bool) :
    (place_bid s u ip raw now en tr).result = validate_bid s.item raw now := by
  rcases h : validate_bid s.item raw now with a | r <;>
    simp [place_bid, apply_bid, h]

theorem place_bid_state (s : AuctionState) (u ip : Nat) (raw : RawAmount)
    (now : Int) (en : Nat → Bool) (tr : Bool) :
    (place_bid s u ip raw now en tr).state = (apply_bid s s.item u ip raw now).2 := by
  rcases h : validate_bid s.item raw now with a | r <;>
    simp [place_bid, apply_bid, h]

theorem apply_bid_rejected (s : AuctionState) (snap : Item) (u ip : Nat)
    (raw : RawAmount) (now : Int) (r : Reason)
    (h : validate_bid snap raw now = .rejected r) :
    apply_bid s snap u ip raw now = (.rejected r, s) := by
  simp [apply_bid, h]

theorem apply_bid_accepted (s : AuctionState) (snap : Item) (u ip : Nat)
    (raw : RawAmount) (now : Int) (a : ℚ)
    (h : validate_bid snap raw now = .accepted a) :
    apply_bid s snap u ip raw now =
      (.accepted a,
       { item := { snap with current_price := a },
         bids := s.bids ++ [⟨u, a⟩],
         attempts := s.attempts ++ [⟨u, ip, now, true⟩] }) := by
  simp [apply_bid, h]

theorem validate_bid_value (item : Item) (a : ℚ) (now : Int) :
    validate_bid item (.value a) now =
      if item.is_active = false then .rejected .notActive
      else if item.end_date < now then .rejected .ended
      else if a ≤ item.current_price then .rejected .tooLow
      else if a < item.current_price + 1 then .rejected .belowIncrement
      else .accepted a := by
  cases hact : item.is_active <;> simp [validate_bid, hact]

theorem validate_bid_accepts (item : Item) (a : ℚ) (now : Int)
    (hact : item.is_active = true) (hend : ¬item.end_date < now)
    (ha : item.current_price + 1 ≤ a) :
    validate_bid item (.value a) now = .accepted a := by
  rw [validate_bid_value]
  rw [if_neg (by simp [hact]), if_neg hend,
    if_neg (not_le.mpr (by linarith)), if_neg (not_lt.mpr ha)]

theorem validate_bid_too_low (item : Item) (a : ℚ) (now : Int)
    (hact : item.is_active = true) (hend : ¬item.end_date < now)
    (ha : a ≤ item.current_price) :
    validate_bid item (.value a) now = .rejected .tooLow := by
  rw [validate_bid_value]
  rw [if_neg (by simp [hact]), if_neg hend, if_pos ha]

/-- C1: `check_bid_rate_limit` (views.py:118-134) reports the actor+origin
pair as over the limit — ten attempts inside the trailing 60-second
window — yet `place_bid` (views.py:676-774) never invokes it: the same
request is accepted on a valid amount and a further `BidAttempt` row is
written, instead of the rate-limited rejection with no row that the claim
requires. -/
theorem C1_rate_limit_unenforced :
    check_bid_rate_limit tenAttempts (some 1) 1 30 = true ∧
    (place_bid ⟨demoItem, [], tenAttempts⟩ 1 1 (.value 12) 30 noPrefs true).result =
      .accepted 12 ∧
    (place_bid ⟨demoItem, [], tenAttempts⟩ 1 1 (.value 12) 30 noPrefs true).state.attempts =
      tenAttempts ++ [⟨1, 1, 30, true⟩] := by
  refine ⟨by norm_num [check_bid_rate_limit, tenAttempts, MAX_BID_ATTEMPTS,
    BID_ATTEMPT_PERIOD, List.range, List.range.loop], ?_, ?_⟩ <;>
    norm_num [place_bid, apply_bid, validate_bid, demoItem]

/-- C2 counterexample: at `now = end_date` exactly (here both `100`), the
source's check `item.end_date < timezone.now()` (views.py:689) does not
fire, and a valid bid is accepted — the claim says every call with
`now >= end_time` returns `Rejected(Ended)` and is never accepted. -/
theorem C2_boundary_counterexample :
    (100 : Int) ≥ 100 ∧
    (place_bid demoState 1 1 (.value 12) 100 noPrefs true).result = .accepted 12 := by
  exact ⟨le_refl _, by norm_num [place_bid, apply_bid, validate_bid, demoState, demoItem]⟩

/-- C2 amended: `place_bid` returns `Rejected(Ended)` whenever
`end_date < now` strictly — on every active item, for every raw amount —
and leaves the state untouched; the boundary `now = end_date` is not
covered by this check and such a request proceeds to normal validation. -/
theorem C2_ended_when_past_end (s : AuctionState) (u ip : Nat)
    (raw : RawAmount) (now : Int) (en : Nat → Bool) (tr : Bool)
    (hact : s.item.is_active = true) (hend : s.item.end_date < now) :
    (place_bid s u ip raw now en tr).result = .rejected .ended ∧
    (place_bid s u ip raw now en tr).state = s := by
  have hv : validate_bid s.item raw now = .rejected .ended := by
    simp [validate_bid, hact, hend]
  refine ⟨?_, ?_⟩
  · rw [place_bid_result, hv]
  · rw [place_bid_state, apply_bid_rejected _ _ _ _ _ _ _ hv]

/-- C2 witness: an active item whose auction ended at time 100, bid at time
101, is rejected as ended with no state change. -/
theorem C2_ended_witness :
    (place_bid demoState 1 1 (.value 12) 101 noPrefs true).result =
      .rejected .ended ∧
    (place_bid demoState 1 1 (.value 12) 101 noPrefs true).state = demoState :=
  C2_ended_when_past_end demoState 1 1 (.value 12) 101 noPrefs true
    (by norm_num [demoState, demoItem]) (by norm_num [demoState, demoItem])

/-- C3 counterexample: an active item whose `start_date` (50) is still in
the future at bid time (10) accepts a valid bid — `place_bid`
(views.py:676-774) never reads `start_date`, while the claim requires every
bid on a not-yet-started auction to be rejected. -/
theorem C3_future_start_counterexample :
    (10 : Int) < 50 ∧
    (place_bid ⟨⟨true, 50, 100, 10, 10, none⟩, [], []⟩ 1 1 (.value 12) 10
        noPrefs true).result = .accepted 12 := by
  exact ⟨by norm_num, by norm_num [place_bid, apply_bid, validate_bid]⟩

/-- C3 amended: `place_bid` consults only the active flag, `end_date` and
`current_price`; the item's `start_date` is never read, so replacing it by
any value whatsoever changes nothing in the outcome beyond the stored field
itself — in particular a valid bid on an active item whose `start_date` is
still in the future is accepted, not rejected. -/
theorem C3_start_date_never_consulted (s : AuctionState) (u ip : Nat)
    (raw : RawAmount) (now : Int) (en : Nat → Bool) (tr : Bool) (d : Int) :
    place_bid (set_start s d) u ip raw now en tr =
      ⟨(place_bid s u ip raw now en tr).result,
       set_start (place_bid s u ip raw now en tr).state d,
       (place_bid s u ip raw now en tr).notified⟩ := by
  have hv : validate_bid (set_start s d).item raw now = validate_bid s.item raw now := by
    rfl
  rcases h : validate_bid s.item raw now with a | r
  · have h' : validate_bid (set_start s d).item raw now = .accepted a := hv.trans h
    simp only [set_start] at h'
    simp [place_bid, apply_bid, h, h', set_start]
  · have h' : validate_bid (set_start s d).item raw now = .rejected r := hv.trans h
    simp only [set_start] at h'
    simp [place_bid, apply_bid, h, h', set_start]

/-- C4 counterexample: a parseable negative amount (`-3`) on an open item
with `current_price = 5` is rejected as too low (views.py:713) rather than
as an invalid amount — the claim's third check, "amount well-formed
positive monetary value, else InvalidAmount", does not match the code,
which never tests positivity. -/
theorem C4_negative_amount_counterexample :
    (place_bid ⟨⟨true, 0, 100, 5, 5, none⟩, [], []⟩ 1 1 (.value (-3)) 50
        noPrefs true).result = .rejected .tooLow ∧
    (place_bid ⟨⟨true, 0, 100, 5, 5, none⟩, [], []⟩ 1 1 (.value (-3)) 50
        noPrefs true).result ≠ .rejected .invalidAmount := by
  have h : (place_bid ⟨⟨true, 0, 100, 5, 5, none⟩, [], []⟩ 1 1 (.value (-3)) 50
      noPrefs true).result = .rejected .tooLow := by
    norm_num [place_bid, apply_bid, validate_bid]
  exact ⟨h, by rw [h]; simp⟩

/-- C4 amended: the checks of `place_bid` run in the fixed order — active,
auction not ended (`end_date < now`), amount present, amount parseable,
amount exceeds `current_price`, amount at least `current_price + 1` — the
first failing check alone fixing the reason, and all passing yielding
acceptance; positivity is never tested, so a parseable non-positive amount
reaches the price comparison and is rejected as too low.  Stated as an
exact characterisation of each outcome. -/
theorem C4_check_order (s : AuctionState) (u ip : Nat) (raw : RawAmount)
    (now : Int) (en : Nat → Bool) (tr : Bool) (a : ℚ) :
    ((place_bid s u ip raw now en tr).result = .rejected .notActive ↔
      s.item.is_active = false) ∧
    ((place_bid s u ip raw now en tr).result = .rejected .ended ↔
      s.item.is_active = true ∧ s.item.end_date < now) ∧
    ((place_bid s u ip raw now en tr).result = .rejected .amountRequired ↔
      s.item.is_active = true ∧ ¬s.item.end_date < now ∧ raw = .missing) ∧
    ((place_bid s u ip raw now en tr).result = .rejected .invalidAmount ↔
      s.item.is_active = true ∧ ¬s.item.end_date < now ∧ raw = .malformed) ∧
    ((place_bid s u ip (.value a) now en tr).result = .rejected .tooLow ↔
      s.item.is_active = true ∧ ¬s.item.end_date < now ∧
        a ≤ s.item.current_price) ∧
    ((place_bid s u ip (.value a) now en tr).result = .rejected .belowIncrement ↔
      s.item.is_active = true ∧ ¬s.item.end_date < now ∧
        s.item.current_price < a ∧ a < s.item.current_price + 1) ∧
    ((place_bid s u ip (.value a) now en tr).result = .accepted a ↔
      s.item.is_active = true ∧ ¬s.item.end_date < now ∧
        s.item.current_price + 1 ≤ a) := by
  rw [place_bid_result, place_bid_result]
  cases hact : s.item.is_active <;> cases raw <;>
    simp [validate_bid, hact] <;> split_ifs <;>
    simp_all <;> linarith

/-- C5: on an open item — active, `start_date ≤ now < end_date` — a bid of
exactly `current_price + 0.50` is rejected for the minimum increment
(views.py:720), and a bid of exactly `current_price + 1` is accepted: the
increment boundary is inclusive. -/
theorem C5_increment_boundary (s : AuctionState) (u ip : Nat) (now : Int)
    (en : Nat → Bool) (tr : Bool) (hact : s.item.is_active = true)
    (hstart : s.item.start_date ≤ now) (hend : now < s.item.end_date) :
    (place_bid s u ip (.value (s.item.current_price + 1 / 2)) now en tr).result =
      .rejected .belowIncrement ∧
    (place_bid s u ip (.value (s.item.current_price + 1)) now en tr).result =
      .accepted (s.item.current_price + 1) := by
  have hne : ¬s.item.end_date < now := not_lt.mpr (le_of_lt hend)
  constructor <;> rw [place_bid_result, validate_bid_value] <;>
    simp [hact, hne] <;> norm_num

/-- C5 witness: at price 10, a bid of 10.50 at time 50 on the demonstration
item is below increment, and a bid of 11 is accepted. -/
theorem C5_increment_boundary_witness :
    (place_bid demoState 1 1 (.value (demoState.item.current_price + 1 / 2)) 50
        noPrefs true).result = .rejected .belowIncrement ∧
    (place_bid demoState 1 1 (.value (demoState.item.current_price + 1)) 50
        noPrefs true).result = .accepted (demoState.item.current_price + 1) :=
  C5_increment_boundary demoState 1 1 50 noPrefs true
    (by norm_num [demoState, demoItem]) (by norm_num [demoState, demoItem])
    (by norm_num [demoState, demoItem])

/-- C6: the mail transport behind `send_outbid_notification`
(views.py:1220-1278) catches every delivery failure internally, so for
every `place_bid` call — in particular every otherwise-valid one — the
returned result and the persisted state (item, bid rows, attempt rows) are
identical whether the transport succeeds or fails; only the delivery flag
can differ. -/
theorem C6_notification_isolation (s : AuctionState) (u ip : Nat)
    (raw : RawAmount) (now : Int) (en : Nat → Bool) (t₁ t₂ : Bool) :
    (place_bid s u ip raw now en t₁).result =
      (place_bid s u ip raw now en t₂).result ∧
    (place_bid s u ip raw now en t₁).state =
      (place_bid s u ip raw now en t₂).state := by
  rcases h : validate_bid s.item raw now with a | r <;>
    simp [place_bid, apply_bid, h]

/-- C7 counterexample: a bid on an inactive item is rejected by validation,
and the attempt table stays empty — the validation branches of `place_bid`
(views.py:681-724) return before any `BidAttempt` is created, where the
claim requires exactly one failed `BidAttempt` for every validation
rejection. -/
theorem C7_no_attempt_on_rejection_counterexample :
    (place_bid ⟨⟨false, 0, 100, 10, 10, none⟩, [], []⟩ 1 1 (.value 12) 50
        noPrefs true).result = .rejected .notActive ∧
    (place_bid ⟨⟨false, 0, 100, 10, 10, none⟩, [], []⟩ 1 1 (.value 12) 50
        noPrefs true).state.attempts = [] := by
  constructor <;> norm_num [place_bid, apply_bid, validate_bid]

/-- C7 amended: a `place_bid` request rejected by validation writes no
`BidAttempt` at all — the state comes back unchanged — while an accepted
request appends exactly one successful `BidAttempt`; a failed attempt row
is only ever written by the exception handler of the view
(views.py:763-769), which no validation rejection reaches. -/
theorem C7_attempt_recording (s : AuctionState) (u ip : Nat)
    (raw : RawAmount) (now : Int) (en : Nat → Bool) (tr : Bool) :
    (∀ r, (place_bid s u ip raw now en tr).result = .rejected r →
      (place_bid s u ip raw now en tr).state = s) ∧
    (∀ a, (place_bid s u ip raw now en tr).result = .accepted a →
      (place_bid s u ip raw now en tr).state.attempts =
        s.attempts ++ [⟨u, ip, now, true⟩]) := by
  rcases h : validate_bid s.item raw now with a | r <;>
    constructor <;> intro x hx <;>
    simp [place_bid, apply_bid, h] at hx ⊢ <;> simp [hx]

/-- C7 witness: the two branches of the amended statement, each applied at a
concrete call — a rejected bid on an inactive item leaves the state intact,
and an accepted bid on the demonstration item appends one successful
attempt row. -/
theorem C7_attempt_recording_witness :
    (place_bid ⟨⟨false, 0, 100, 10, 10, none⟩, [], []⟩ 1 1 (.value 12) 50
        noPrefs true).state = ⟨⟨false, 0, 100, 10, 10, none⟩, [], []⟩ ∧
    (place_bid demoState 1 1 (.value 12) 50 noPrefs true).state.attempts =
      demoState.attempts ++ [⟨1, 1, 50, true⟩] :=
  ⟨(C7_attempt_recording ⟨⟨false, 0, 100, 10, 10, none⟩, [], []⟩ 1 1
      (.value 12) 50 noPrefs true).1 .notActive
      (by norm_num [place_bid, apply_bid, validate_bid]),
   (C7_attempt_recording demoState 1 1 (.value 12) 50 noPrefs true).2 12
      (by norm_num [place_bid, apply_bid, validate_bid, demoState, demoItem])⟩

/-- C8: every `place_bid` call preserves the price invariant — when a bid
for amount `a` is accepted the stored `current_price` becomes exactly `a`
and strictly exceeds its previous value, `starting_price` is untouched and
`current_price ≥ starting_price` is preserved, and a rejected call leaves
`current_price` exactly as it was, so the price changes only as the side
effect of an accepted bid and the sampled sequence is strictly
increasing. -/
theorem C8_price_monotonic (s : AuctionState) (u ip : Nat) (raw : RawAmount)
    (now : Int) (en : Nat → Bool) (tr : Bool) :
    (∀ a, (place_bid s u ip raw now en tr).result = .accepted a →
      (place_bid s u ip raw now en tr).state.item.current_price = a ∧
      s.item.current_price <
        (place_bid s u ip raw now en tr).state.item.current_price) ∧
    (place_bid s u ip raw now en tr).state.item.starting_price =
      s.item.starting_price ∧
    (s.item.starting_price ≤ s.item.current_price →
      s.item.starting_price ≤
        (place_bid s u ip raw now en tr).state.item.current_price) ∧
    (∀ r, (place_bid s u ip raw now en tr).result = .rejected r →
      (place_bid s u ip raw now en tr).state.item.current_price =
        s.item.current_price) := by
  have key : ∀ a, validate_bid s.item raw now = .accepted a →
      s.item.current_price < a := by
    intro a ha
    cases hact : s.item.is_active <;> cases raw <;>
      simp [validate_bid, hact] at ha <;> split_ifs at ha <;>
      simp_all <;> linarith
  rcases h : validate_bid s.item raw now with a | r
  · have hlt := key a h
    refine ⟨?_, ?_, ?_, ?_⟩ <;>
      simp [place_bid, apply_bid, h]
    · exact hlt
    · intro hs; linarith
  · refine ⟨?_, ?_, ?_, ?_⟩ <;> simp [place_bid, apply_bid, h]

/-- C8 witness: an accepted bid of 12 on the demonstration item (price 10)
sets the price to 12, strictly above 10 and above the starting price. -/
theorem C8_price_monotonic_witness :
    (place_bid demoState 1 1 (.value 12) 50 noPrefs true).state.item.current_price = 12 ∧
    demoState.item.current_price <
      (place_bid demoState 1 1 (.value 12) 50 noPrefs true).state.item.current_price ∧
    demoState.item.starting_price ≤
      (place_bid demoState 1 1 (.value 12) 50 noPrefs true).state.item.current_price := by
  refine ⟨((C8_price_monotonic demoState 1 1 (.value 12) 50 noPrefs true).1 12
      (by norm_num [place_bid, apply_bid, validate_bid, demoState, demoItem])).1,
    ((C8_price_monotonic demoState 1 1 (.value 12) 50 noPrefs true).1 12
      (by norm_num [place_bid, apply_bid, validate_bid, demoState, demoItem])).2,
    (C8_price_monotonic demoState 1 1 (.value 12) 50 noPrefs true).2.2.1
      (by norm_num [demoState, demoItem])⟩

/-- C9 counterexample: two racing bids of `current_price + 5` (15) and
`current_price + 3` (13), both loading the item before either commits —
a schedule nothing in `place_bid` prevents, since the view takes no lock
and no enclosing database operation (views.py:676-774) — are both accepted,
and the final stored price is the smaller 13: the claimed mutual exclusion
with exactly one acceptance does not exist in the code. -/
theorem C9_race_counterexample :
    two_bids_interleaved demoState 1 2 1 15 13 50 =
      (.accepted 15, .accepted 13,
       ⟨⟨true, 0, 100, 10, 13, none⟩,
        [⟨1, 15⟩, ⟨2, 13⟩],
        [⟨1, 1, 50, true⟩, ⟨2, 1, 50, true⟩]⟩) := by
  norm_num [two_bids_interleaved, apply_bid, validate_bid, demoState, demoItem]

/-- C9 amended: `place_bid` has no per-item mutual exclusion.  When the two
calls happen to run serially the second revalidates against the committed
price and exactly one is accepted — the first wins, the second with the
smaller amount is rejected as too low.  But in the interleaving where both
requests load the item before either commits, both amounts validate
against the same stale price, both are accepted, and the final
`current_price` is whichever committed last. -/
theorem C9_no_mutual_exclusion (s : AuctionState) (u₁ u₂ ip : Nat)
    (now : Int) (en : Nat → Bool) (tr : Bool) (a₁ a₂ : ℚ)
    (hact : s.item.is_active = true) (hend : ¬s.item.end_date < now)
    (h₂ : s.item.current_price + 1 ≤ a₂) (h₁₂ : a₂ ≤ a₁) :
    ((place_bid s u₁ ip (.value a₁) now en tr).result = .accepted a₁ ∧
     (place_bid (place_bid s u₁ ip (.value a₁) now en tr).state u₂ ip
         (.value a₂) now en tr).result = .rejected .tooLow) ∧
    ((two_bids_interleaved s u₁ u₂ ip a₁ a₂ now).1 = .accepted a₁ ∧
     (two_bids_interleaved s u₁ u₂ ip a₁ a₂ now).2.1 = .accepted a₂ ∧
     (two_bids_interleaved s u₁ u₂ ip a₁ a₂ now).2.2.item.current_price = a₂) := by
  have hv₁ : validate_bid s.item (.value a₁) now = .accepted a₁ :=
    validate_bid_accepts s.item a₁ now hact hend (by linarith)
  have hv₂ : validate_bid s.item (.value a₂) now = .accepted a₂ :=
    validate_bid_accepts s.item a₂ now hact hend h₂
  have hstate : (place_bid s u₁ ip (.value a₁) now en tr).state =
      { item := { s.item with current_price := a₁ },
        bids := s.bids ++ [⟨u₁, a₁⟩],
        attempts := s.attempts ++ [⟨u₁, ip, now, true⟩] } := by
    rw [place_bid_state, apply_bid_accepted _ _ _ _ _ _ _ hv₁]
  have hv₂' : validate_bid { s.item with current_price := a₁ }
      (.value a₂) now = .rejected .tooLow :=
    validate_bid_too_low _ a₂ now hact hend h₁₂
  refine ⟨⟨?_, ?_⟩, ?_⟩
  · rw [place_bid_result, hv₁]
  · rw [place_bid_result, hstate]
    exact hv₂'
  · simp [two_bids_interleaved,
      apply_bid_accepted _ _ _ _ _ _ _ hv₁, apply_bid_accepted _ _ _ _ _ _ _ hv₂]

/-- C9 witness: on the demonstration item at price 10, serial execution of
bids 15 then 13 accepts only the first, while the interleaved schedule
accepts both and leaves the price at 13. -/
theorem C9_no_mutual_exclusion_witness :
    ((place_bid demoState 1 1 (.value 15) 50 noPrefs true).result = .accepted 15 ∧
     (place_bid (place_bid demoState 1 1 (.value 15) 50 noPrefs true).state 2 1
         (.value 13) 50 noPrefs true).result = .rejected .tooLow) ∧
    ((two_bids_interleaved demoState 1 2 1 15 13 50).1 = .accepted 15 ∧
     (two_bids_interleaved demoState 1 2 1 15 13 50).2.1 = .accepted 13 ∧
     (two_bids_interleaved demoState 1 2 1 15 13 50).2.2.item.current_price = 13) :=
  C9_no_mutual_exclusion demoState 1 2 1 50 noPrefs true 15 13
    (by norm_num [demoState, demoItem]) (by norm_num [demoState, demoItem])
    (by norm_num [demoState, demoItem]) (by norm_num)

/-- C10: `mark_winners` (views.py:1281-1342) consumes only `item_ids[0]` —
the tail of the list changes nothing — and never reads the `Bid` table, and
whenever the first item exists, the user exists and `item.end_date ≤ now`,
it reports success and stores that user as the item's winner, bids or no
bids. -/
theorem C10_mark_winners_first_only (db : List (Nat × Item))
    (users : List Nat) (bids₁ bids₂ : List Bid) (id₀ : Nat)
    (rest : List Nat) (uid : Nat) (now : Int) (item : Item) :
    mark_winners db users bids₁ (id₀ :: rest) (some uid) now =
      mark_winners db users bids₁ [id₀] (some uid) now ∧
    mark_winners db users bids₁ (id₀ :: rest) (some uid) now =
      mark_winners db users bids₂ (id₀ :: rest) (some uid) now ∧
    (find_item db id₀ = some item → users.contains uid = true →
      item.end_date ≤ now →
      (mark_winners db users bids₁ (id₀ :: rest) (some uid) now).1 =
        .success uid id₀ ∧
      find_item (mark_winners db users bids₁ (id₀ :: rest) (some uid) now).2 id₀ =
        some { item with winner := some uid }) := by
  refine ⟨rfl, rfl, ?_⟩
  intro hfind huser hend
  have hlt : ¬now < item.end_date := not_lt.mpr hend
  have hupd : find_item (set_winner db id₀ uid) id₀ =
      some { item with winner := some uid } := by
    induction db with
    | nil => simp [find_item] at hfind
    | cons p tl ih =>
      cases hp : (p.1 == id₀) with
      | true =>
        have hpeq : p.1 = id₀ := by simpa using hp
        have hsnd : p.2 = item := by
          have h1 : List.find? (fun q => q.1 == id₀) (p :: tl) = some p :=
            List.find?_cons_of_pos _ hp
          simp only [find_item, h1, Option.map_some'] at hfind
          exact Option.some.inj hfind
        simp [set_winner, find_item, List.find?, hpeq, hsnd]
      | false =>
        have hne : ¬p.1 = id₀ := by simpa using hp
        have hfind' : find_item tl id₀ = some item := by
          simpa [find_item, List.find?, hp, hne] using hfind
        have hrec := ih hfind'
        simpa [set_winner, find_item, List.find?, hp, hne] using hrec
  have hmem : uid ∈ users := by simpa using huser
  have hres : mark_winners db users bids₁ (id₀ :: rest) (some uid) now =
      (.success uid id₀, set_winner db id₀ uid) := by
    simp [mark_winners, hfind, huser, hmem, hlt]
  rw [hres]
  exact ⟨rfl, hupd⟩

/-- C10 witness: a two-item database, `item_ids = [7, 8]`, user 3, time 150
past item 7's end: item 7 alone gets winner 3, and the call equals the call
on `[7]` and is unchanged by any bid table. -/
theorem C10_mark_winners_witness :
    (mark_winners [(7, demoItem), (8, demoItem)] [3] [] [7, 8] (some 3) 150).1 =
      .success 3 7 ∧
    find_item (mark_winners [(7, demoItem), (8, demoItem)] [3] [] [7, 8]
        (some 3) 150).2 7 = some { demoItem with winner := some 3 } :=
  (C10_mark_winners_first_only [(7, demoItem), (8, demoItem)] [3] [] [⟨1, 11⟩]
      7 [8] 3 150 demoItem).2.2
    (by norm_num [find_item, demoItem]) (by norm_num)
    (by norm_num [demoItem])

end AuctionEngine
